import Mathlib

/-!
# BoodiBox API client — verification of the spec's claims

Shallow embedding of `src/index.js` (a minimal HTTP API client that
uploads media files, polls for processing completion, and submits posts)
and of `src/lib/http.js`.

Modelling conventions:
* JavaScript values relevant to validation are modelled by `JSVal`
  (undefined / null / boolean / integer number / string).  `toUpperCase`,
  `toLowerCase` and `trim` are modelled on ASCII, which covers every
  value the library compares against.
* Network effects are modelled by response oracles: a function from the
  index of the request to the (already received) response.  Real time is
  modelled by an elapsed-time oracle giving the value of
  `Date.now() - start` at each loop iteration.
* A function that can `throw` returns `Except`; the thrown error's
  distinguishing fields (attached `status`, `body`, `uploadStatus`,
  `statusObj` attributes) are carried by the error constructors.
-/

instance {ε α : Type} [DecidableEq ε] [DecidableEq α] : DecidableEq (Except ε α) :=
  fun x y =>
    match x, y with
    | .ok a, .ok b =>
      if h : a = b then isTrue (by rw [h]) else isFalse (by simp [h])
    | .error a, .error b =>
      if h : a = b then isTrue (by rw [h]) else isFalse (by simp [h])
    | .ok _, .error _ => isFalse (by simp)
    | .error _, .ok _ => isFalse (by simp)

/-- JavaScript values as far as the client's validation logic inspects
them: `undefined`, `null`, booleans, (integer) numbers and strings. -/
inductive JSVal where
  | undef
  | null
  | bool (b : Bool)
  | num (n : Int)
  | str (s : String)
deriving Repr, DecidableEq

/-- JavaScript whitespace characters handled by `String.prototype.trim`
(restricted to the ASCII ones). -/
def jsWhite (c : Char) : Bool :=
  c = ' ' ∨ c = '\t' ∨ c = '\n' ∨ c = '\r'

/-- `String.prototype.trim`: drop leading and trailing whitespace. -/
def jsTrim (s : String) : String :=
  String.mk (((s.data.dropWhile jsWhite).reverse.dropWhile jsWhite).reverse)

/-- `String.prototype.toUpperCase` on ASCII strings. -/
def jsToUpper (s : String) : String :=
  String.mk (s.data.map Char.toUpper)

/-- `String.prototype.toLowerCase` on ASCII strings. -/
def jsToLower (s : String) : String :=
  String.mk (s.data.map Char.toLower)

/-- JavaScript `String(v)` conversion. -/
def jsToString : JSVal → String
  | .undef => "undefined"
  | .null => "null"
  | .bool b => if b then "true" else "false"
  | .num n => toString n
  | .str s => s

/-- JavaScript falsiness (`!v`) for the modelled values. -/
def jsFalsy : JSVal → Bool
  | .undef => true
  | .null => true
  | .bool b => !b
  | .num n => n = 0
  | .str s => s = ""

/-- `typeof rp === 'string' && rp.trim() === ''` from
`validateReplyPermission` (src/index.js line 48). -/
def isEmptyTrimmedString : JSVal → Bool
  | .str s => jsTrim s = ""
  | _ => false

/-- Validation errors thrown by the client (src/index.js lines 49, 53, 62). -/
inductive ValErr where
  | emptyReplyPermission
  | badReplyPermission
  | badQuoteID
deriving Repr, DecidableEq

/-- `validateReplyPermission` (src/index.js lines 46-56):
`undefined` is passed through (`.ok none`, the caller defaults it);
`null`, whitespace-only strings and falsy values are rejected; otherwise
the value is stringified, upper-cased and must be `PRIVATE` or `PUBLIC`. -/
def validateReplyPermission (rp : JSVal) : Except ValErr (Option String) :=
  if rp = JSVal.undef then .ok none
  else if rp = JSVal.null ∨ isEmptyTrimmedString rp ∨ jsFalsy rp then
    .error .emptyReplyPermission
  else
    let up := jsToUpper (jsToString rp)
    if up = "PRIVATE" ∨ up = "PUBLIC" then .ok (some up)
    else .error .badReplyPermission

/-- ASCII letter, either case: what `[a-z]` matches under the regex's
`i` flag (src/index.js line 25). -/
def isAsciiLetter (c : Char) : Bool :=
  ('a' ≤ c ∧ c ≤ 'z') ∨ ('A' ≤ c ∧ c ≤ 'Z')

/-- ASCII alphanumeric, either case: `[a-z0-9]` under the `i` flag. -/
def isAsciiAlnum (c : Char) : Bool :=
  isAsciiLetter c ∨ ('0' ≤ c ∧ c ≤ '9')

/-- `CUID2_REGEX = /^[a-z][a-z0-9]{23,31}$/i` (src/index.js line 25):
a leading ASCII letter followed by 23 to 31 ASCII alphanumerics, both
case-insensitively because of the `i` flag. -/
def cuid2Match (s : String) : Bool :=
  match s.data with
  | [] => false
  | c :: rest =>
    isAsciiLetter c ∧ rest.all isAsciiAlnum ∧ 23 ≤ rest.length ∧ rest.length ≤ 31

/-- `validateQuotePostID` (src/index.js lines 58-65): `null`/`undefined`
pass through; otherwise the trimmed string must match `CUID2_REGEX` and
is lower-cased on success. -/
def validateQuotePostID (id : Option String) : Except ValErr (Option String) :=
  match id with
  | none => .ok none
  | some raw =>
    let s := jsTrim raw
    if cuid2Match s then .ok (some (jsToLower s))
    else .error .badQuoteID

/-- An upload-status object as returned by `GET {uploadPath}/{id}`
(`{ status, src? }`), or the `{ missing: true }` sentinel built for 404
responses (src/index.js line 147).  Absent fields are `none` / `false`. -/
structure StatusObj where
  status : Option String
  src : Option String
  missing : Bool
deriving Repr, DecidableEq

/-- The `{ missing: true }` sentinel object of src/index.js line 147. -/
def missingSentinel : StatusObj := ⟨none, none, true⟩

/-- The statuses on which `pollUntilProcessed` returns
(src/index.js lines 165-166): `PROCESSED`, `DELETED`, `ATTACHED`. -/
def isTerminalStatus (s : StatusObj) : Bool :=
  s.status = some "PROCESSED" ∨ s.status = some "DELETED" ∨ s.status = some "ATTACHED"

/-- An HTTP response of the upload-status endpoint: the status code and
the decoded JSON body (consulted only on 2xx responses). -/
structure UploadStatusResp where
  httpStatus : Nat
  body : StatusObj
deriving Repr, DecidableEq

/-- `Response.ok` of the fetch API: status in the range 200-299. -/
def respOk (status : Nat) : Bool :=
  200 ≤ status ∧ status ≤ 299

/-- `getUploadStatus` (src/index.js lines 144-156): a 404 response maps
to the `{ missing: true }` sentinel; any other non-2xx response throws
(error carrying the HTTP status); a 2xx response yields its JSON body. -/
def getUploadStatus (r : UploadStatusResp) : Except Nat StatusObj :=
  if r.httpStatus = 404 then .ok missingSentinel
  else if ¬ respOk r.httpStatus then .error r.httpStatus
  else .ok r.body

/-- Outcome of one `pollUntilProcessed` run, together with the number of
status queries it issued.  `done` is the normal return, `timedOut` the
`polling timeout waiting for processed` error with its attached
`uploadStatus`, and `fetchFailed` a `getUploadStatus` error. -/
inductive PollResult where
  | done (s : StatusObj) (queries : Nat)
  | timedOut (last : StatusObj) (queries : Nat)
  | fetchFailed (httpStatus : Nat) (queries : Nat)
deriving Repr, DecidableEq

/-- The loop of `pollUntilProcessed` (src/index.js lines 163-173).
`resps k` is the response to the `k`-th status query and `elapsed k`
the value of `Date.now() - start` at the timeout check following that
query (the `await wait(interval)` between iterations is visible only
through `elapsed`).  `fuel` bounds the number of iterations modelled;
`none` means the run needs more iterations than `fuel`. -/
def pollLoop (resps : Nat → UploadStatusResp) (elapsed : Nat → Int)
    (timeoutMs : Int) : Nat → Nat → Option PollResult
  | 0, _ => none
  | fuel + 1, k =>
    match getUploadStatus (resps k) with
    | .error st => some (.fetchFailed st (k + 1))
    | .ok s =>
      if isTerminalStatus s then some (.done s (k + 1))
      else if elapsed k > timeoutMs then some (.timedOut s (k + 1))
      else pollLoop resps elapsed timeoutMs fuel (k + 1)

/-- `pollUntilProcessed` (src/index.js lines 158-174) for one upload id,
starting the loop at query index 0. -/
def pollUntilProcessed (resps : Nat → UploadStatusResp) (elapsed : Nat → Int)
    (timeoutMs : Int) (fuel : Nat) : Option PollResult :=
  pollLoop resps elapsed timeoutMs fuel 0

/-- One item of the `files` array passed to `uploadFiles`.  Only the
presence of its three defining fields matters to the control flow:
`path` (a string, truthy when non-empty), `buffer` and `file`
(objects, truthy when present). -/
structure FileItem where
  path : Option String
  buffer : Bool
  file : Bool
deriving Repr, DecidableEq

/-- The per-item check of the `uploadFiles` loop
(src/index.js lines 97-123): the item must supply a truthy `path`,
a `buffer`, or a `file`, else the loop throws. -/
def hasValidForm (f : FileItem) : Bool :=
  (match f.path with | some p => decide (p ≠ "") | none => false) || f.buffer || f.file

/-- Decoded JSON body of a `POST {uploadPath}` response:
`{ success, uploads?, reason? }`. -/
structure UploadRespBody where
  success : Bool
  uploads : Option (List String)
  reason : Option String
deriving Repr, DecidableEq

/-- An HTTP response of the upload endpoint.  `body` is the parse result
of the response text: `none` models a body `safeParseJSON` cannot parse
(`resp.json()` would reject on it). -/
structure UploadResp where
  ok : Bool
  status : Nat
  body : Option UploadRespBody
deriving Repr, DecidableEq

/-- Errors thrown by `uploadFiles` (src/index.js lines 92, 122, 130,
137) plus the rejection of `resp.json()` on an unparseable 2xx body.
`httpFailed` and `logicalFailure` carry the attached `body` field. -/
inductive UploadErr where
  | notNonEmptyArray
  | badItem
  | httpFailed (status : Nat) (body : Option UploadRespBody)
  | logicalFailure (body : UploadRespBody)
  | jsonParseFailed
deriving Repr, DecidableEq

/-- `uploadFiles` (src/index.js lines 91-142) against one HTTP response.
The first component counts the HTTP requests issued (0 or 1): the array
check and the per-item form checks all happen before the fetch.
`files = none` models a non-array argument. -/
def uploadFiles (files : Option (List FileItem)) (resp : UploadResp) :
    Nat × Except UploadErr (List String) :=
  match files with
  | none => (0, .error .notNonEmptyArray)
  | some fs =>
    if fs.isEmpty then (0, .error .notNonEmptyArray)
    else if ¬ fs.all hasValidForm then (0, .error .badItem)
    else if ¬ resp.ok then (1, .error (.httpFailed resp.status resp.body))
    else
      match resp.body with
      | none => (1, .error .jsonParseFailed)
      | some b =>
        if ¬ b.success then (1, .error (.logicalFailure b))
        else (1, .ok (b.uploads.getD []))

/-- `retryAsync` (src/index.js lines 291-300), unrolled from attempt
index `i` with `left = retries - i` retries remaining: the loop throws
the caught error exactly when `i > retries` (i.e. when `left` has hit 0),
and otherwise waits `backoffMs * i` (for the new failure count `i`, here
`i + 1` zero-based) before the next attempt.  `outcomes k` is the result
of the `k`-th invocation of `fn` (0-based).  Returns the final result,
the total number of invocations, and the list of back-off waits
performed, in order. -/
def retryAux (outcomes : Nat → Except UploadErr (List String))
    (backoffMs : Nat) :
    Nat → Nat → Except UploadErr (List String) × Nat × List Nat
  | 0, i =>
    (match outcomes i with
     | .ok a => .ok a
     | .error e => .error e, i + 1, [])
  | left + 1, i =>
    match outcomes i with
    | .ok a => (.ok a, i + 1, [])
    | .error _ =>
      let r := retryAux outcomes backoffMs left (i + 1)
      (r.1, r.2.1, backoffMs * (i + 1) :: r.2.2)

/-- `retryAsync(fn, retries, backoffMs)` starting at attempt 0 with all
`retries` retries available. -/
def retryAsync (outcomes : Nat → Except UploadErr (List String))
    (retries backoffMs : Nat) :
    Except UploadErr (List String) × Nat × List Nat :=
  retryAux outcomes backoffMs retries 0

/-- The JSON payload `submitPost` sends to `POST {postsPath}`
(src/index.js lines 203-204). -/
structure PostPayload where
  body : String
  medias : List String
  replyPermission : String
  quotePostID : Option String
  userIP : Option String
deriving Repr, DecidableEq

/-- Observable outcome of `submitPost` up to the network send: either a
validation error is thrown before any I/O, or the request is issued
with the given payload. -/
inductive SubmitResult where
  | err (e : ValErr)
  | payload (p : PostPayload)
deriving Repr, DecidableEq

/-- Reply-permission resolution of `submitPost` (src/index.js lines
192-198): `undefined` defaults to `PUBLIC`, any other value goes
through `validateReplyPermission`.  (For a defined, valid `rp`,
`validateReplyPermission` always returns `some`; `getD` only names the
impossible `none` case.) -/
def submitPostRP (rp : JSVal) : Except ValErr String :=
  if rp = JSVal.undef then .ok "PUBLIC"
  else (validateReplyPermission rp).map (fun o => o.getD "PUBLIC")

/-- `quotePostID == null ? null : validateQuotePostID(quotePostID)`
(src/index.js lines 200 and 238). -/
def resolveQuotePostID (qid : Option String) : Except ValErr (Option String) :=
  match qid with
  | none => .ok none
  | some q => validateQuotePostID (some q)

/-- The eager reply-permission check of `submitPostWithFiles`
(src/index.js lines 233-237): `undefined` is left for `submitPost` to
default, anything else must pass `validateReplyPermission` now. -/
def eagerValidateRP (rp : JSVal) : Except ValErr (Option String) :=
  if rp = JSVal.undef then .ok none
  else validateReplyPermission rp

/-- `submitPost` (src/index.js lines 190-219) up to the network send:
`replyPermission === undefined` defaults to `PUBLIC`, any other value
goes through `validateReplyPermission`; `quotePostID == null` stays
`null`, otherwise `validateQuotePostID`; `userIP` is attached only when
truthy. -/
def submitPost (body : String) (medias : List String) (rp : JSVal)
    (qid : Option String) (userIP : Option String) : SubmitResult :=
  match submitPostRP rp with
  | .error e => .err e
  | .ok rpv =>
    match resolveQuotePostID qid with
    | .error e => .err e
    | .ok qv =>
      .payload ⟨body, medias, rpv, qv,
        match userIP with
        | some s => if s ≠ "" then some s else none
        | none => none⟩

/-- The ways a `pollUntilProcessed` call can throw, as seen by
`submitPostWithFiles`: the polling-timeout error (carrying the last
observed status) or a status-fetch error. -/
inductive PollThrow where
  | timedOut (last : StatusObj)
  | fetchFailed (httpStatus : Nat)
deriving Repr, DecidableEq

/-- Record of one `pollUntilProcessed` invocation made by
`submitPostWithFiles`: the upload id polled and the `timeoutMs` option
it was invoked with. -/
structure PollCall where
  uploadId : String
  timeoutArg : Int
deriving Repr, DecidableEq

/-- Errors thrown by `submitPostWithFiles` (src/index.js lines 236-264):
eager validation failures, the wrapped `Uploading files failed` error,
the overall `Timeout while waiting for files to be processed`, an error
propagated out of `pollUntilProcessed`, and the two terminal-state
errors carrying their `statusObj`. -/
inductive SPWFErr where
  | validation (e : ValErr)
  | uploadFailed (e : UploadErr)
  | overallTimeout
  | pollFailed (e : PollThrow)
  | terminalState (s : StatusObj)
  | noSrc (s : StatusObj)
deriving Repr, DecidableEq

/-- Observable outcome of `submitPostWithFiles`: an error, or
`submitPost` invoked (its request issued) with the given payload. -/
inductive SPWFResult where
  | err (e : SPWFErr)
  | submitted (p : PostPayload)
deriving Repr, DecidableEq

/-- Lift a `submitPost` outcome into a `submitPostWithFiles` outcome. -/
def toSPWF : SubmitResult → SPWFResult
  | .err e => .err (.validation e)
  | .payload p => .submitted p

/-- The `timeoutMs` passed to `pollUntilProcessed` for the upload at
loop index `i` (src/index.js line 253):
`Math.min(remainingTime, pollOptions.timeoutMs ?? config.pollTimeoutMs)`,
where `remainingTime = timeoutMs - (Date.now() - start)` and `elapsedAt i`
models `Date.now() - start` at that iteration. -/
def pollTimeoutArg (timeoutMs : Int) (elapsedAt : Nat → Int)
    (pollTimeoutOpt : Option Int) (cfgPollTimeout : Int) (i : Nat) : Int :=
  min (timeoutMs - elapsedAt i) (pollTimeoutOpt.getD cfgPollTimeout)

/-- The `for (const uploadId of uploads)` loop of `submitPostWithFiles`
(src/index.js lines 247-267).  `pollFn i t` is the outcome of the
`pollUntilProcessed` call for the `i`-th upload when invoked with
timeout option `t`.  Returns the trace of poll invocations actually
issued and either the collected `finalSrcs` or the first error.
A falsy (`none` or empty) `src` on a `PROCESSED` status throws the
`no src returned` error. -/
def processUploads (pollFn : Nat → Int → Except PollThrow StatusObj)
    (elapsedAt : Nat → Int) (timeoutMs : Int) (pollTimeoutOpt : Option Int)
    (cfgPollTimeout : Int) :
    List String → Nat → List PollCall × Except SPWFErr (List String)
  | [], _ => ([], .ok [])
  | uid :: rest, i =>
    if timeoutMs - elapsedAt i ≤ 0 then ([], .error .overallTimeout)
    else
      let t := pollTimeoutArg timeoutMs elapsedAt pollTimeoutOpt cfgPollTimeout i
      match pollFn i t with
      | .error e => ([⟨uid, t⟩], .error (.pollFailed e))
      | .ok s =>
        if s.status ≠ some "PROCESSED" then ([⟨uid, t⟩], .error (.terminalState s))
        else
          match s.src with
          | none => ([⟨uid, t⟩], .error (.noSrc s))
          | some v =>
            if v = "" then ([⟨uid, t⟩], .error (.noSrc s))
            else
              let r := processUploads pollFn elapsedAt timeoutMs pollTimeoutOpt
                cfgPollTimeout rest (i + 1)
              (⟨uid, t⟩ :: r.1, r.2.map (fun l => v :: l))

/-- `submitPostWithFiles` (src/index.js lines 226-271).  With no files
(non-array or empty) it degenerates to a direct `submitPost` with empty
`medias`.  Otherwise it validates `replyPermission` and `quotePostID`
eagerly, runs `uploadFiles` under `retryAsync(·, maxRetries, 300)`
(`uploadResps k` is the response to the `k`-th upload attempt; a failure
is wrapped as `Uploading files failed`), then runs the polling loop from
`start` and finally calls `submitPost` with the collected sources.
`pollOptions.intervalMs` influences the run only through `elapsedAt`. -/
def submitPostWithFiles (body : String) (files : Option (List FileItem))
    (rp : JSVal) (qid : Option String) (uploadResps : Nat → UploadResp)
    (maxRetries : Nat) (pollFn : Nat → Int → Except PollThrow StatusObj)
    (elapsedAt : Nat → Int) (pollTimeoutOpt : Option Int)
    (timeoutMs cfgPollTimeout : Int) : List PollCall × SPWFResult :=
  match files with
  | none => ([], toSPWF (submitPost body [] rp qid none))
  | some fs =>
    if fs.isEmpty then ([], toSPWF (submitPost body [] rp qid none))
    else
      match eagerValidateRP rp with
      | .error e => ([], .err (.validation e))
      | .ok _ =>
        match resolveQuotePostID qid with
        | .error e => ([], .err (.validation e))
        | .ok _ =>
          match (retryAsync (fun k => (uploadFiles files (uploadResps k)).2) maxRetries 300).1 with
          | .error e => ([], .err (.uploadFailed e))
          | .ok uploads =>
            let r := processUploads pollFn elapsedAt timeoutMs pollTimeoutOpt
              cfgPollTimeout uploads 0
            match r.2 with
            | .error e => (r.1, .err e)
            | .ok srcs => (r.1, toSPWF (submitPost body srcs rp qid none))

/-! ## Theorems -/

/-- The trimmed-empty check subsumes the plain empty string. -/
lemma jsTrim_empty : jsTrim "" = "" := rfl

/-- C3: reply-permission resolution in `submitPost`.  Omitted
(`undefined`) resolves to a submitted payload with `PUBLIC`; explicitly
supplied empty or falsy values (`""`, `null`, `false`, `0`) fail
validation, so no payload is built (no network I/O); any other string
is accepted exactly when its upper-casing is `PUBLIC` or `PRIVATE`, and
an accepted value is submitted in its normalized (upper-cased) form. -/
theorem submitPost_replyPermission_resolution :
    (∀ body medias, submitPost body medias JSVal.undef none none
        = .payload ⟨body, medias, "PUBLIC", none, none⟩) ∧
    (∀ body medias,
      submitPost body medias (JSVal.str "") none none = .err .emptyReplyPermission ∧
      submitPost body medias JSVal.null none none = .err .emptyReplyPermission ∧
      submitPost body medias (JSVal.bool false) none none = .err .emptyReplyPermission ∧
      submitPost body medias (JSVal.num 0) none none = .err .emptyReplyPermission) ∧
    (∀ s : String, jsTrim s ≠ "" →
      validateReplyPermission (JSVal.str s) =
        (if jsToUpper s = "PUBLIC" then .ok (some "PUBLIC")
         else if jsToUpper s = "PRIVATE" then .ok (some "PRIVATE")
         else .error .badReplyPermission)) ∧
    (∀ body medias (s : String), jsTrim s ≠ "" →
      (jsToUpper s = "PUBLIC" →
        submitPost body medias (JSVal.str s) none none
          = .payload ⟨body, medias, "PUBLIC", none, none⟩) ∧
      (jsToUpper s = "PRIVATE" →
        submitPost body medias (JSVal.str s) none none
          = .payload ⟨body, medias, "PRIVATE", none, none⟩)) := by
  have hval : ∀ s : String, jsTrim s ≠ "" →
      validateReplyPermission (JSVal.str s) =
        (if jsToUpper s = "PUBLIC" then .ok (some "PUBLIC")
         else if jsToUpper s = "PRIVATE" then .ok (some "PRIVATE")
         else .error .badReplyPermission) := by
    intro s hs
    have hs0 : s ≠ "" := fun h => hs (by rw [h]; rfl)
    rw [validateReplyPermission]
    rw [if_neg (by simp), if_neg (by simp [isEmptyTrimmedString, jsFalsy, hs, hs0])]
    show (if jsToUpper s = "PRIVATE" ∨ jsToUpper s = "PUBLIC" then _ else _) = _
    by_cases h1 : jsToUpper s = "PUBLIC"
    · simp [jsToString, h1]
    · by_cases h2 : jsToUpper s = "PRIVATE" <;> simp [jsToString, h1, h2]
  refine ⟨fun body medias => rfl,
    fun body medias => ⟨rfl, rfl, rfl, rfl⟩, hval, ?_⟩
  intro body medias s hs
  constructor
  · intro hup
    have h := hval s hs
    rw [hup, if_pos rfl] at h
    simp [submitPost, submitPostRP, resolveQuotePostID, h, Except.map]
  · intro hup
    have h := hval s hs
    have hne : jsToUpper s ≠ "PUBLIC" := by rw [hup]; decide
    rw [if_neg hne, if_pos hup] at h
    simp [submitPost, submitPostRP, resolveQuotePostID, h, Except.map]

/-- Witness for the reply-permission theorem at concrete inputs. -/
theorem submitPost_replyPermission_resolution_witness :
    submitPost "hi" ["m1"] JSVal.undef none none
      = .payload ⟨"hi", ["m1"], "PUBLIC", none, none⟩ ∧
    submitPost "hi" [] (JSVal.str "") none none = .err .emptyReplyPermission ∧
    validateReplyPermission (JSVal.str "Public") = .ok (some "PUBLIC") ∧
    submitPost "hi" [] (JSVal.str "private") none none
      = .payload ⟨"hi", [], "PRIVATE", none, none⟩ := by
  obtain ⟨h1, h2, h3, h4⟩ := submitPost_replyPermission_resolution
  refine ⟨h1 "hi" ["m1"], (h2 "hi" []).1, ?_, ?_⟩
  · rw [h3 "Public" (by decide)]; decide
  · exact (h4 "hi" [] "private" (by decide)).2 (by decide)

/-- Declarative characterization of `CUID2_REGEX` (with its `i` flag):
non-empty, leading ASCII letter of either case, remaining characters
ASCII alphanumeric of either case, total length between 24 and 32. -/
lemma cuid2Match_iff (s : String) :
    cuid2Match s = true ↔
      (s.data ≠ [] ∧ isAsciiLetter (s.data.headD '0') = true ∧
       s.data.tail.all isAsciiAlnum = true ∧
       24 ≤ s.data.length ∧ s.data.length ≤ 32) := by
  rcases hd : s.data with _ | ⟨c, rest⟩
  · simp [cuid2Match, hd]
  · simp only [cuid2Match, hd, List.headD_cons, List.tail_cons, List.length_cons,
      decide_eq_true_eq, ne_eq, reduceCtorEq, not_false_eq_true, true_and]
    constructor
    · rintro ⟨h1, h2, h3, h4⟩
      exact ⟨h1, h2, by omega⟩
    · rintro ⟨h1, h2, h3, h4⟩
      exact ⟨h1, h2, by omega, by omega⟩

/-- C6 counterexample: `validateQuotePostID` accepts a 24-character
identifier whose tail characters are upper-case (so *not* lowercase
alphanumerics), because the regex carries the `i` flag; it lower-cases
the identifier on success. -/
theorem validateQuotePostID_uppercase_accepted :
    validateQuotePostID (some "aBBBBBBBBBBBBBBBBBBBBBBB")
      = .ok (some "abbbbbbbbbbbbbbbbbbbbbbb") ∧
    ((jsTrim "aBBBBBBBBBBBBBBBBBBBBBBB").data.tail.all
      (fun c => ('a' ≤ c ∧ c ≤ 'z') ∨ ('0' ≤ c ∧ c ≤ '9')) = false) := by
  decide

/-- C6 (amended): a non-null quote-post id is accepted exactly when its
trimmed form is a leading ASCII letter (either case) followed by ASCII
alphanumerics (either case) with total length between 24 and 32
inclusive; on success it is lower-cased; otherwise validation fails;
`null`/absent passes through unchanged. -/
theorem validateQuotePostID_shape (raw : String) :
    validateQuotePostID none = Except.ok none ∧
    (validateQuotePostID (some raw) = .ok (some (jsToLower (jsTrim raw))) ↔
      ((jsTrim raw).data ≠ [] ∧
       isAsciiLetter ((jsTrim raw).data.headD '0') = true ∧
       (jsTrim raw).data.tail.all isAsciiAlnum = true ∧
       24 ≤ (jsTrim raw).data.length ∧ (jsTrim raw).data.length ≤ 32)) ∧
    (¬ ((jsTrim raw).data ≠ [] ∧
        isAsciiLetter ((jsTrim raw).data.headD '0') = true ∧
        (jsTrim raw).data.tail.all isAsciiAlnum = true ∧
        24 ≤ (jsTrim raw).data.length ∧ (jsTrim raw).data.length ≤ 32) →
      validateQuotePostID (some raw) = .error .badQuoteID) := by
  by_cases hc : cuid2Match (jsTrim raw) = true
  · refine ⟨rfl, ?_, ?_⟩
    · rw [show validateQuotePostID (some raw) = .ok (some (jsToLower (jsTrim raw)))
        from by simp [validateQuotePostID, hc]]
      exact ⟨fun _ => (cuid2Match_iff _).1 hc, fun _ => rfl⟩
    · intro hn
      exact absurd ((cuid2Match_iff _).1 hc) hn
  · have hc' : cuid2Match (jsTrim raw) = false := by
      revert hc; cases cuid2Match (jsTrim raw) <;> simp
    have herr : validateQuotePostID (some raw) = .error .badQuoteID := by
      simp [validateQuotePostID, hc']
    refine ⟨rfl, ?_, fun _ => herr⟩
    rw [herr]
    constructor
    · intro h; cases h
    · intro hsh
      exact absurd ((cuid2Match_iff _).2 hsh) hc

/-- Witness for the quote-post-id theorem: a valid 24-character id is
accepted and lower-cased, a leading-digit id and a 10-character id are
rejected. -/
theorem validateQuotePostID_shape_witness :
    validateQuotePostID (some "a1b2c3d4e5f6g7h8i9j0k1l2")
      = .ok (some "a1b2c3d4e5f6g7h8i9j0k1l2") ∧
    validateQuotePostID (some "1abcdefghijklmnopqrstuvw") = .error .badQuoteID ∧
    validateQuotePostID (some "abcde12345") = .error .badQuoteID := by
  refine ⟨?_, ?_, ?_⟩
  · have h := (validateQuotePostID_shape "a1b2c3d4e5f6g7h8i9j0k1l2").2.1.2 (by decide)
    rw [h]; decide
  · exact (validateQuotePostID_shape "1abcdefghijklmnopqrstuvw").2.2 (by decide)
  · exact (validateQuotePostID_shape "abcde12345").2.2 (by decide)

/-- Skipping over good (successfully fetched, non-terminal, within
budget) queries: each consumes one unit of fuel and advances the query
index. -/
lemma pollLoop_skip (resps : Nat → UploadStatusResp) (elapsed : Nat → Int)
    (timeoutMs : Int) :
    ∀ (n k fuel : Nat),
      (∀ j, k ≤ j → j < k + n → ∃ s, getUploadStatus (resps j) = .ok s ∧
        isTerminalStatus s = false ∧ elapsed j ≤ timeoutMs) →
      pollLoop resps elapsed timeoutMs (fuel + n) k
        = pollLoop resps elapsed timeoutMs fuel (k + n) := by
  intro n
  induction n with
  | zero => intro k fuel _; rfl
  | succ m ih =>
    intro k fuel h
    obtain ⟨s, hs, hterm, htime⟩ := h k (le_refl k) (by omega)
    have h1 : pollLoop resps elapsed timeoutMs (fuel + (m + 1)) k
        = pollLoop resps elapsed timeoutMs (fuel + m) (k + 1) := by
      show pollLoop resps elapsed timeoutMs ((fuel + m) + 1) k = _
      simp only [pollLoop, hs, hterm, Bool.false_eq_true, if_false]
      rw [if_neg (by omega)]
    rw [h1, ih (k + 1) fuel (fun j hj1 hj2 => h j (by omega) (by omega))]
    have : k + 1 + m = k + (m + 1) := by omega
    rw [this]

/-- C2 counterexample: a status source whose first query returns
HTTP 404 (mapped to the `{ missing: true }` sentinel).  Polling does
*not* stop at that query: a second query is issued (`queries = 2`) and
its `PROCESSED` status is returned, so the missing sentinel is not a
terminal signal for the loop. -/
theorem pollUntilProcessed_missing_not_terminal :
    pollUntilProcessed
      (fun k => if k = 0 then ⟨404, ⟨none, none, false⟩⟩
                else ⟨200, ⟨some "PROCESSED", some "S", false⟩⟩)
      (fun k => (k : Int)) 1000 5
      = some (.done ⟨some "PROCESSED", some "S", false⟩ 2) ∧
    getUploadStatus ⟨404, ⟨none, none, false⟩⟩ = .ok missingSentinel := by
  decide

/-- C2 (amended): `pollUntilProcessed` stops immediately — returning the
status object after exactly `k + 1` queries, with no further query or
interval wait — at the first query whose status is `PROCESSED`,
`DELETED` or `ATTACHED`.  A "not found" (HTTP 404) query is mapped to
the `{ missing: true }` sentinel, which is *not* terminal: polling
continues past it until a terminal status or the timeout. -/
theorem pollUntilProcessed_terminal_stops (resps : Nat → UploadStatusResp)
    (elapsed : Nat → Int) (timeoutMs : Int) (k fuel : Nat) (s : StatusObj)
    (hprev : ∀ j, j < k → ∃ s', getUploadStatus (resps j) = .ok s' ∧
      isTerminalStatus s' = false ∧ elapsed j ≤ timeoutMs)
    (hk : getUploadStatus (resps k) = .ok s)
    (hterm : isTerminalStatus s = true)
    (hfuel : k < fuel) :
    pollUntilProcessed resps elapsed timeoutMs fuel = some (.done s (k + 1)) ∧
    (∀ b, getUploadStatus ⟨404, b⟩ = .ok missingSentinel) ∧
    isTerminalStatus missingSentinel = false := by
  refine ⟨?_, fun b => rfl, rfl⟩
  have hstep : pollLoop resps elapsed timeoutMs (fuel - k) k
      = some (.done s (k + 1)) := by
    obtain ⟨m, hm⟩ : ∃ m, fuel - k = m + 1 := ⟨fuel - k - 1, by omega⟩
    rw [hm]
    simp [pollLoop, hk, hterm]
  have hf : fuel = (fuel - k) + k := by omega
  rw [pollUntilProcessed, hf,
    pollLoop_skip resps elapsed timeoutMs k 0 (fuel - k)
      (fun j hj1 hj2 => hprev j (by omega)),
    Nat.zero_add, hstep]

/-- C7: if every query before index `k` is successfully fetched,
non-terminal and within the timeout budget, and the query at `k` is
non-terminal with the budget exceeded at its check, the poll fails with
the polling-timeout error carrying the last observed status (the one
from query `k`). -/
theorem pollUntilProcessed_timeout_last_status (resps : Nat → UploadStatusResp)
    (elapsed : Nat → Int) (timeoutMs : Int) (k fuel : Nat) (s : StatusObj)
    (hprev : ∀ j, j < k → ∃ s', getUploadStatus (resps j) = .ok s' ∧
      isTerminalStatus s' = false ∧ elapsed j ≤ timeoutMs)
    (hk : getUploadStatus (resps k) = .ok s)
    (hterm : isTerminalStatus s = false)
    (htime : elapsed k > timeoutMs)
    (hfuel : k < fuel) :
    pollUntilProcessed resps elapsed timeoutMs fuel
      = some (.timedOut s (k + 1)) := by
  have hstep : pollLoop resps elapsed timeoutMs (fuel - k) k
      = some (.timedOut s (k + 1)) := by
    obtain ⟨m, hm⟩ : ∃ m, fuel - k = m + 1 := ⟨fuel - k - 1, by omega⟩
    rw [hm]
    simp [pollLoop, hk, hterm, htime]
  have hf : fuel = (fuel - k) + k := by omega
  rw [pollUntilProcessed, hf,
    pollLoop_skip resps elapsed timeoutMs k 0 (fuel - k)
      (fun j hj1 hj2 => hprev j (by omega)),
    Nat.zero_add, hstep]

/-- Witness for the terminal-stop theorem: the third query is `DELETED`,
polling answers it after exactly 3 queries. -/
theorem pollUntilProcessed_terminal_stops_witness :
    pollUntilProcessed
      (fun k => if k < 2 then ⟨200, ⟨some "PENDING", none, false⟩⟩
                else ⟨200, ⟨some "DELETED", none, false⟩⟩)
      (fun k => 1000 * (k : Int)) 30000 10
      = some (.done ⟨some "DELETED", none, false⟩ 3) := by
  have h := pollUntilProcessed_terminal_stops
    (fun k => if k < 2 then ⟨200, ⟨some "PENDING", none, false⟩⟩
              else ⟨200, ⟨some "DELETED", none, false⟩⟩)
    (fun k => 1000 * (k : Int)) 30000 2 10 ⟨some "DELETED", none, false⟩
    (fun j hj => by
      interval_cases j <;>
        exact ⟨⟨some "PENDING", none, false⟩, by decide, by decide, by decide⟩)
    (by decide) (by decide) (by decide)
  exact h.1

/-- Witness for the poll-timeout theorem: a source that never leaves
`PENDING` with a 500 ms budget and queries spaced 1000 ms apart fails at
the second query, carrying that query's `PENDING` status. -/
theorem pollUntilProcessed_timeout_last_status_witness :
    pollUntilProcessed (fun _ => ⟨200, ⟨some "PENDING", none, false⟩⟩)
      (fun k => 1000 * (k : Int)) 500 10
      = some (.timedOut ⟨some "PENDING", none, false⟩ 2) :=
  pollUntilProcessed_timeout_last_status
    (fun _ => ⟨200, ⟨some "PENDING", none, false⟩⟩)
    (fun k => 1000 * (k : Int)) 500 1 10 ⟨some "PENDING", none, false⟩
    (fun j hj => ⟨⟨some "PENDING", none, false⟩, rfl, by decide, by
      interval_cases j
      decide⟩)
    (by decide) (by decide) (by decide) (by decide)

/-- C9: the first status query is always issued before any timeout
evaluation, whatever the timeout budget (including zero or negative):
if it yields a terminal status the call succeeds with that status after
one query, and only a non-terminal first result can lead to the timeout
error — which then still reflects that one issued query. -/
theorem pollUntilProcessed_first_query (resps : Nat → UploadStatusResp)
    (elapsed : Nat → Int) (timeoutMs : Int) (fuel : Nat) (s : StatusObj)
    (hk : getUploadStatus (resps 0) = .ok s)
    (hfuel : 0 < fuel) :
    (isTerminalStatus s = true →
      pollUntilProcessed resps elapsed timeoutMs fuel = some (.done s 1)) ∧
    (isTerminalStatus s = false → elapsed 0 > timeoutMs →
      pollUntilProcessed resps elapsed timeoutMs fuel
        = some (.timedOut s 1)) := by
  obtain ⟨m, rfl⟩ : ∃ m, fuel = m + 1 := ⟨fuel - 1, by omega⟩
  constructor
  · intro hterm
    simp [pollUntilProcessed, pollLoop, hk, hterm]
  · intro hterm htime
    simp [pollUntilProcessed, pollLoop, hk, hterm, htime]

/-- Witness for the first-query theorem: with a zero timeout budget and
a terminal first status the call succeeds, and with a negative budget
and a `PENDING` first status the timeout error still carries the status
of the one query that was issued. -/
theorem pollUntilProcessed_first_query_witness :
    pollUntilProcessed (fun _ => ⟨200, ⟨some "PROCESSED", some "X", false⟩⟩)
      (fun _ => 0) 0 4
      = some (.done ⟨some "PROCESSED", some "X", false⟩ 1) ∧
    pollUntilProcessed (fun _ => ⟨200, ⟨some "PENDING", none, false⟩⟩)
      (fun _ => 0) (-5) 4
      = some (.timedOut ⟨some "PENDING", none, false⟩ 1) := by
  constructor
  · exact (pollUntilProcessed_first_query
      (fun _ => ⟨200, ⟨some "PROCESSED", some "X", false⟩⟩) (fun _ => 0) 0 4
      ⟨some "PROCESSED", some "X", false⟩ (by decide) (by decide)).1 (by decide)
  · exact (pollUntilProcessed_first_query
      (fun _ => ⟨200, ⟨some "PENDING", none, false⟩⟩) (fun _ => 0) (-5) 4
      ⟨some "PENDING", none, false⟩ (by decide) (by decide)).2 (by decide) (by decide)

/-- A successful attempt returns immediately, whatever the remaining
retry budget. -/
lemma retryAux_ok (outcomes : Nat → Except UploadErr (List String))
    (backoffMs i : Nat) (a : List String) (h : outcomes i = .ok a) :
    ∀ left, retryAux outcomes backoffMs left i = (.ok a, i + 1, []) := by
  intro left
  cases left <;> simp [retryAux, h]

/-- Shape of a `retryAux` run from attempt `i`: at least one and at most
`left + 1` further invocations, and the `j`-th recorded wait (0-based)
is `backoffMs * (i + j + 1)`. -/
lemma retryAux_bounds (outcomes : Nat → Except UploadErr (List String))
    (backoffMs : Nat) :
    ∀ (left i : Nat),
      i + 1 ≤ (retryAux outcomes backoffMs left i).2.1 ∧
      (retryAux outcomes backoffMs left i).2.1 ≤ i + left + 1 ∧
      (retryAux outcomes backoffMs left i).2.2.length
        = (retryAux outcomes backoffMs left i).2.1 - 1 - i ∧
      (∀ j, j < (retryAux outcomes backoffMs left i).2.2.length →
        (retryAux outcomes backoffMs left i).2.2[j]?
          = some (backoffMs * (i + j + 1))) := by
  intro left
  induction left with
  | zero =>
    intro i
    rcases h : outcomes i with e | a <;> simp [retryAux, h]
  | succ m ih =>
    intro i
    rcases h : outcomes i with e | a
    · obtain ⟨ih1, ih2, ih3, ih4⟩ := ih (i + 1)
      simp only [retryAux, h]
      refine ⟨by omega, by omega, by simp; omega, ?_⟩
      intro j hj
      rcases j with _ | j'
      · simp
      · simp only [List.length_cons] at hj
        have := ih4 j' (by omega)
        simp only [List.getElem?_cons_succ, this]
        congr 2
        omega
    · simp [retryAux, h]

/-- Exhausting the budget: when every attempt up to `i + left` fails,
the run makes exactly `left + 1` more invocations and re-throws the
error of the final attempt. -/
lemma retryAux_all_fail (outcomes : Nat → Except UploadErr (List String))
    (backoffMs : Nat) (es : Nat → UploadErr) :
    ∀ (left i : Nat), (∀ j, i ≤ j → j ≤ i + left → outcomes j = .error (es j)) →
      (retryAux outcomes backoffMs left i).1 = .error (es (i + left)) ∧
      (retryAux outcomes backoffMs left i).2.1 = i + left + 1 := by
  intro left
  induction left with
  | zero =>
    intro i h
    simp [retryAux, h i (le_refl i) (by omega)]
  | succ m ih =>
    intro i h
    have h0 : outcomes i = .error (es i) := h i (le_refl i) (by omega)
    obtain ⟨ih1, ih2⟩ := ih (i + 1) (fun j hj1 hj2 => h j (by omega) (by omega))
    simp only [retryAux, h0]
    have e1 : i + 1 + m = i + (m + 1) := by omega
    rw [e1] at ih1 ih2
    exact ⟨ih1, ih2⟩

/-- C4: the retry policy of the upload step.  The whole `uploadFiles`
call is retried: `retryAsync` makes at most `retries + 1` invocations,
the wait before retry attempt `N` (1-based) is `N × backoffMs`; a
transport failing twice then succeeding with `maxRetries ≥ 2` succeeds
after exactly 3 invocations with waits `backoffMs` then `2 × backoffMs`;
when every attempt fails, the error of the last attempt is re-thrown
after `retries + 1` invocations, and `submitPostWithFiles` surfaces it
wrapped as its upload-failure error. -/
theorem retryAsync_policy :
    (∀ outcomes retries backoffMs,
      (retryAsync outcomes retries backoffMs).2.1 ≤ retries + 1 ∧
      (retryAsync outcomes retries backoffMs).2.2.length
        = (retryAsync outcomes retries backoffMs).2.1 - 1 ∧
      (∀ j, j < (retryAsync outcomes retries backoffMs).2.2.length →
        (retryAsync outcomes retries backoffMs).2.2[j]?
          = some (backoffMs * (j + 1)))) ∧
    (∀ outcomes retries backoffMs (a : List String) e0 e1,
      outcomes 0 = .error e0 → outcomes 1 = .error e1 → outcomes 2 = .ok a →
      2 ≤ retries →
      retryAsync outcomes retries backoffMs
        = (.ok a, 3, [backoffMs * 1, backoffMs * 2])) ∧
    (∀ outcomes retries backoffMs (es : Nat → UploadErr),
      (∀ j, j ≤ retries → outcomes j = .error (es j)) →
      (retryAsync outcomes retries backoffMs).1 = .error (es retries) ∧
      (retryAsync outcomes retries backoffMs).2.1 = retries + 1) ∧
    (∀ body (fs : List FileItem) rp qid uploadResps maxRetries pollFn elapsedAt
        pOpt timeoutMs cfg e rpo qo,
      fs ≠ [] →
      eagerValidateRP rp = .ok rpo →
      resolveQuotePostID qid = .ok qo →
      (retryAsync (fun k => (uploadFiles (some fs) (uploadResps k)).2)
        maxRetries 300).1 = .error e →
      submitPostWithFiles body (some fs) rp qid uploadResps maxRetries pollFn
        elapsedAt pOpt timeoutMs cfg = ([], .err (.uploadFailed e))) := by
  refine ⟨?_, ?_, ?_, ?_⟩
  · intro outcomes retries backoffMs
    obtain ⟨h1, h2, h3, h4⟩ := retryAux_bounds outcomes backoffMs retries 0
    refine ⟨by simpa [retryAsync] using h2, by simpa [retryAsync] using h3, ?_⟩
    intro j hj
    have hj' : j < (retryAux outcomes backoffMs retries 0).2.2.length := by
      simpa [retryAsync] using hj
    have := h4 j hj'
    simpa [retryAsync] using this
  · intro outcomes retries backoffMs a e0 e1 h0 h1 h2 hr
    obtain ⟨r, rfl⟩ : ∃ r, retries = r + 2 := ⟨retries - 2, by omega⟩
    rw [retryAsync]
    simp only [retryAux, h0, h1]
    rw [retryAux_ok outcomes backoffMs 2 a h2 r]
  · intro outcomes retries backoffMs es h
    have := retryAux_all_fail outcomes backoffMs es retries 0
      (fun j hj1 hj2 => h j (by omega))
    simpa [retryAsync] using this
  · intro body fs rp qid uploadResps maxRetries pollFn elapsedAt pOpt timeoutMs
      cfg e rpo qo hne hrp hqid hup
    obtain ⟨f0, fs', rfl⟩ : ∃ f0 fs', fs = f0 :: fs' := by
      cases fs with
      | nil => exact absurd rfl hne
      | cons a l => exact ⟨a, l, rfl⟩
    simp only [submitPostWithFiles, List.isEmpty_cons, Bool.false_eq_true,
      if_false, hrp, hqid, hup]

/-- Witness for the retry-policy theorem: a transport failing twice then
succeeding, with `maxRetries = 3` and a 300 ms base delay, succeeds
after exactly 3 invocations with waits of 300 then 600 ms. -/
theorem retryAsync_policy_witness :
    retryAsync (fun k => if k < 2 then .error .badItem else .ok ["u"]) 3 300
      = (.ok ["u"], 3, [300 * 1, 300 * 2]) :=
  retryAsync_policy.2.1 (fun k => if k < 2 then .error .badItem else .ok ["u"])
    3 300 ["u"] .badItem .badItem (by decide) (by decide) (by decide) (by decide)

/-- C8 counterexample: a 2xx (`resp.ok`) response whose body does not
parse as JSON makes `uploadFiles` fail — `resp.json()` at
src/index.js line 135 rejects — although none of the claim's four
enumerated failure conditions holds: the list is non-empty with a valid
item, the HTTP status is a success, and there is no parsed body at all
(so no body reporting `success = false`). -/
theorem uploadFiles_parse_failure_outside_enumeration :
    (uploadFiles (some [⟨some "a.jpg", false, false⟩]) ⟨true, 200, none⟩).2
      = .error .jsonParseFailed ∧
    some [(⟨some "a.jpg", false, false⟩ : FileItem)] ≠ none ∧
    [(⟨some "a.jpg", false, false⟩ : FileItem)] ≠ [] ∧
    [(⟨some "a.jpg", false, false⟩ : FileItem)].all hasValidForm = true ∧
    (⟨true, 200, none⟩ : UploadResp).ok = true ∧
    (⟨true, 200, none⟩ : UploadResp).body = none := by
  decide

/-- C8 (amended): `uploadFiles` fails exactly when the file list is
empty or not a list (with no HTTP request issued), when an item supplies
none of the three valid forms, when the HTTP response has a non-success
status, when a success-status response body fails to parse as JSON, or
when the parsed body reports `success = false`; in the non-success
status and logical-failure cases the error carries the parsed response
body. -/
theorem uploadFiles_failure_modes (files : Option (List FileItem))
    (resp : UploadResp) :
    ((∃ e, (uploadFiles files resp).2 = .error e) ↔
      (files = none ∨ files = some [] ∨
       (∃ fs, files = some fs ∧ ¬ fs.all hasValidForm = true) ∨
       resp.ok = false ∨
       (resp.ok = true ∧ resp.body = none) ∨
       (∃ b, resp.body = some b ∧ b.success = false))) ∧
    ((files = none ∨ files = some []) → (uploadFiles files resp).1 = 0) ∧
    (∀ fs, files = some fs → fs ≠ [] → fs.all hasValidForm = true →
      (resp.ok = false →
        (uploadFiles files resp).2 = .error (.httpFailed resp.status resp.body)) ∧
      (∀ b, resp.ok = true → resp.body = some b → b.success = false →
        (uploadFiles files resp).2 = .error (.logicalFailure b))) := by
  refine ⟨?_, ?_, ?_⟩
  · rcases files with _ | fs
    · exact iff_of_true ⟨.notNonEmptyArray, rfl⟩ (Or.inl rfl)
    rcases fs with _ | ⟨f0, fs'⟩
    · exact iff_of_true ⟨.notNonEmptyArray, rfl⟩ (Or.inr (Or.inl rfl))
    by_cases hv : (f0 :: fs').all hasValidForm = true
    · by_cases hok : resp.ok = true
      · by_cases hbn : resp.body = none
        · exact iff_of_true
            ⟨.jsonParseFailed, by simp [uploadFiles, hv, hok, hbn]⟩
            (Or.inr (Or.inr (Or.inr (Or.inr (Or.inl ⟨hok, hbn⟩)))))
        obtain ⟨b, hb⟩ : ∃ b, resp.body = some b := by
          rcases hbd : resp.body with _ | b
          · exact absurd hbd hbn
          · exact ⟨b, rfl⟩
        by_cases hsucc : b.success = true
        · refine iff_of_false ?_ ?_
          · rintro ⟨e, he⟩
            rw [show (uploadFiles (some (f0 :: fs')) resp).2
                  = .ok (b.uploads.getD [])
                from by simp [uploadFiles, hv, hok, hb, hsucc]] at he
            cases he
          · rintro (h | h | ⟨fs2, hfs2, hv2⟩ | h | ⟨hok2, hbn2⟩ | ⟨b2, hb2, hs2⟩)
            · cases h
            · cases h
            · cases hfs2; exact hv2 hv
            · rw [hok] at h; cases h
            · rw [hb] at hbn2; cases hbn2
            · rw [hb] at hb2
              cases hb2
              rw [hsucc] at hs2
              cases hs2
        · have hs' : b.success = false := by
            revert hsucc; cases b.success <;> simp
          exact iff_of_true
            ⟨.logicalFailure b, by simp [uploadFiles, hv, hok, hb, hs']⟩
            (Or.inr (Or.inr (Or.inr (Or.inr (Or.inr ⟨b, hb, hs'⟩)))))
      · have hok' : resp.ok = false := by
          revert hok; cases resp.ok <;> simp
        exact iff_of_true
          ⟨.httpFailed resp.status resp.body, by simp [uploadFiles, hv, hok']⟩
          (Or.inr (Or.inr (Or.inr (Or.inl hok'))))
    · have hv' : (f0 :: fs').all hasValidForm = false := by
        revert hv; cases (f0 :: fs').all hasValidForm <;> simp
      exact iff_of_true
        ⟨.badItem, by simp [uploadFiles, hv']⟩
        (Or.inr (Or.inr (Or.inl ⟨f0 :: fs', rfl, hv⟩)))
  · rintro (rfl | rfl) <;> rfl
  · intro fs2 hfs2 hne hv
    subst hfs2
    obtain ⟨f0, fs', rfl⟩ : ∃ f0 fs', fs2 = f0 :: fs' := by
      cases fs2 with
      | nil => exact absurd rfl hne
      | cons a l => exact ⟨a, l, rfl⟩
    constructor
    · intro hok'
      simp [uploadFiles, hv, hok']
    · intro b hok hb hbs
      simp [uploadFiles, hv, hok, hb, hbs]

/-- Witness for the upload-failure theorem: an empty list issues no HTTP
request, and a non-success response yields the error carrying the parsed
body. -/
theorem uploadFiles_failure_modes_witness :
    (uploadFiles (some []) ⟨true, 200, some ⟨true, none, none⟩⟩).1 = 0 ∧
    (uploadFiles (some [⟨some "a.jpg", false, false⟩])
      ⟨false, 500, some ⟨false, none, some "boom"⟩⟩).2
      = .error (.httpFailed 500 (some ⟨false, none, some "boom"⟩)) := by
  constructor
  · exact (uploadFiles_failure_modes (some [])
      ⟨true, 200, some ⟨true, none, none⟩⟩).2.1 (Or.inr rfl)
  · exact ((uploadFiles_failure_modes (some [⟨some "a.jpg", false, false⟩])
      ⟨false, 500, some ⟨false, none, some "boom"⟩⟩).2.2
      [⟨some "a.jpg", false, false⟩] rfl
      (by simp) (by decide)).1 rfl

/-- With valid reply-permission and quote-id inputs, `submitPost` issues
its request; the payload carries the given medias unchanged. -/
lemma submitPost_of_valid (body : String) (medias : List String) (rp : JSVal)
    (qid : Option String) (rpo qo : Option String)
    (hrp : eagerValidateRP rp = .ok rpo) (hqid : resolveQuotePostID qid = .ok qo) :
    submitPost body medias rp qid none
      = .payload ⟨body, medias,
          if rp = JSVal.undef then "PUBLIC" else rpo.getD "PUBLIC", qo, none⟩ := by
  by_cases hu : rp = JSVal.undef
  · subst hu
    rw [submitPost, show submitPostRP JSVal.undef = .ok "PUBLIC" from rfl, hqid]
    simp
  · have hv : validateReplyPermission rp = .ok rpo := by
      rw [eagerValidateRP, if_neg hu] at hrp
      exact hrp
    rw [submitPost, show submitPostRP rp = .ok (rpo.getD "PUBLIC") from by
      rw [submitPostRP, if_neg hu, hv]; rfl, hqid]
    simp [hu]

/-- A loop index of the polling phase of `submitPostWithFiles` at which
everything goes right: budget still positive, poll returns a `PROCESSED`
status with a truthy `src`. -/
def goodStep (pollFn : Nat → Int → Except PollThrow StatusObj)
    (elapsedAt : Nat → Int) (timeoutMs : Int) (pollTimeoutOpt : Option Int)
    (cfgPollTimeout : Int) (i : Nat) : Prop :=
  0 < timeoutMs - elapsedAt i ∧
  ∃ s v, pollFn i (pollTimeoutArg timeoutMs elapsedAt pollTimeoutOpt cfgPollTimeout i)
      = .ok s ∧ s.status = some "PROCESSED" ∧ s.src = some v ∧ v ≠ ""

/-- Success characterization of the polling loop: when it returns
sources, every upload was polled (in order, with the computed timeout
argument) and yielded a `PROCESSED` status whose `src` is the collected
source at the same position. -/
lemma processUploads_ok (pollFn : Nat → Int → Except PollThrow StatusObj)
    (elapsedAt : Nat → Int) (timeoutMs : Int) (pOpt : Option Int) (cfg : Int) :
    ∀ (uploads : List String) (i0 : Nat) (srcs : List String),
      (processUploads pollFn elapsedAt timeoutMs pOpt cfg uploads i0).2
        = .ok srcs →
      srcs.length = uploads.length ∧
      (processUploads pollFn elapsedAt timeoutMs pOpt cfg uploads i0).1.length
        = uploads.length ∧
      (∀ j, j < uploads.length →
        (processUploads pollFn elapsedAt timeoutMs pOpt cfg uploads i0).1[j]?
          = some ⟨uploads[j]?.getD "",
              pollTimeoutArg timeoutMs elapsedAt pOpt cfg (i0 + j)⟩ ∧
        ∃ s, pollFn (i0 + j) (pollTimeoutArg timeoutMs elapsedAt pOpt cfg (i0 + j))
            = .ok s ∧
          s.status = some "PROCESSED" ∧ s.src = some (srcs[j]?.getD "") ∧
          srcs[j]?.getD "" ≠ "") := by
  intro uploads
  induction uploads with
  | nil =>
    intro i0 srcs h
    simp only [processUploads] at h
    cases h
    exact ⟨rfl, rfl, fun j hj => absurd hj (by simp)⟩
  | cons uid rest ih =>
    intro i0 srcs h
    by_cases ht : timeoutMs - elapsedAt i0 ≤ 0
    · have heq : processUploads pollFn elapsedAt timeoutMs pOpt cfg (uid :: rest) i0
          = ([], .error .overallTimeout) := by
        simp [processUploads, ht]
      rw [heq] at h
      cases h
    rcases hp : pollFn i0 (pollTimeoutArg timeoutMs elapsedAt pOpt cfg i0) with e | s
    · have heq : processUploads pollFn elapsedAt timeoutMs pOpt cfg (uid :: rest) i0
          = ([⟨uid, pollTimeoutArg timeoutMs elapsedAt pOpt cfg i0⟩],
             .error (.pollFailed e)) := by
        simp [processUploads, ht, hp]
      rw [heq] at h
      cases h
    by_cases hst : s.status = some "PROCESSED"
    · rcases hsrc : s.src with _ | v
      · have heq : processUploads pollFn elapsedAt timeoutMs pOpt cfg (uid :: rest) i0
            = ([⟨uid, pollTimeoutArg timeoutMs elapsedAt pOpt cfg i0⟩],
               .error (.noSrc s)) := by
          simp [processUploads, ht, hp, hst, hsrc]
        rw [heq] at h
        cases h
      by_cases hv : v = ""
      · have heq : processUploads pollFn elapsedAt timeoutMs pOpt cfg (uid :: rest) i0
            = ([⟨uid, pollTimeoutArg timeoutMs elapsedAt pOpt cfg i0⟩],
               .error (.noSrc s)) := by
          simp [processUploads, ht, hp, hst, hsrc, hv]
        rw [heq] at h
        cases h
      have heq : processUploads pollFn elapsedAt timeoutMs pOpt cfg (uid :: rest) i0
          = (⟨uid, pollTimeoutArg timeoutMs elapsedAt pOpt cfg i0⟩
              :: (processUploads pollFn elapsedAt timeoutMs pOpt cfg rest (i0 + 1)).1,
             Except.map (fun l => v :: l)
              (processUploads pollFn elapsedAt timeoutMs pOpt cfg rest (i0 + 1)).2) := by
        simp [processUploads, ht, hp, hst, hsrc, hv]
      rw [heq] at h
      rcases hrec : (processUploads pollFn elapsedAt timeoutMs pOpt cfg rest (i0 + 1)).2
        with e2 | srcs2
      · rw [show (⟨uid, pollTimeoutArg timeoutMs elapsedAt pOpt cfg i0⟩
              :: (processUploads pollFn elapsedAt timeoutMs pOpt cfg rest (i0 + 1)).1,
             Except.map (fun l => v :: l)
              (processUploads pollFn elapsedAt timeoutMs pOpt cfg rest (i0 + 1)).2).2
            = Except.map (fun l => v :: l)
                (processUploads pollFn elapsedAt timeoutMs pOpt cfg rest (i0 + 1)).2
          from rfl, hrec] at h
        simp only [Except.map] at h
        cases h
      · rw [show (⟨uid, pollTimeoutArg timeoutMs elapsedAt pOpt cfg i0⟩
              :: (processUploads pollFn elapsedAt timeoutMs pOpt cfg rest (i0 + 1)).1,
             Except.map (fun l => v :: l)
              (processUploads pollFn elapsedAt timeoutMs pOpt cfg rest (i0 + 1)).2).2
            = Except.map (fun l => v :: l)
                (processUploads pollFn elapsedAt timeoutMs pOpt cfg rest (i0 + 1)).2
          from rfl, hrec] at h
        simp only [Except.map, Except.ok.injEq] at h
        subst h
        obtain ⟨ih1, ih2, ih3⟩ := ih (i0 + 1) srcs2 hrec
        rw [heq]
        refine ⟨by simp [ih1], by simp [ih2], ?_⟩
        intro j hj
        rcases j with _ | j2
        · refine ⟨by simp, s, hp, hst, ?_, ?_⟩
          · simpa using hsrc
          · simpa using hv
        · obtain ⟨c1, c2⟩ := ih3 j2 (by simpa using hj)
          have e1 : i0 + 1 + j2 = i0 + (j2 + 1) := by omega
          rw [e1] at c1 c2
          constructor
          · simpa using c1
          · simpa using c2
    · have heq : processUploads pollFn elapsedAt timeoutMs pOpt cfg (uid :: rest) i0
          = ([⟨uid, pollTimeoutArg timeoutMs elapsedAt pOpt cfg i0⟩],
             .error (.terminalState s)) := by
        simp [processUploads, ht, hp, hst]
      rw [heq] at h
      cases h

/-- If the `j`-th poll call of the loop was issued and returned a status
object, a non-`PROCESSED` status makes the loop fail with the
terminal-state error carrying it, and a `PROCESSED` status with a falsy
`src` makes it fail with the no-src error carrying it. -/
lemma processUploads_call_bad (pollFn : Nat → Int → Except PollThrow StatusObj)
    (elapsedAt : Nat → Int) (timeoutMs : Int) (pOpt : Option Int) (cfg : Int) :
    ∀ (uploads : List String) (i0 j : Nat) (c : PollCall) (s : StatusObj),
      (processUploads pollFn elapsedAt timeoutMs pOpt cfg uploads i0).1[j]?
        = some c →
      pollFn (i0 + j) c.timeoutArg = .ok s →
      (s.status ≠ some "PROCESSED" →
        (processUploads pollFn elapsedAt timeoutMs pOpt cfg uploads i0).2
          = .error (.terminalState s)) ∧
      (s.status = some "PROCESSED" → (s.src = none ∨ s.src = some "") →
        (processUploads pollFn elapsedAt timeoutMs pOpt cfg uploads i0).2
          = .error (.noSrc s)) := by
  intro uploads
  induction uploads with
  | nil =>
    intro i0 j c s hc _
    simp only [processUploads] at hc
    simp at hc
  | cons uid rest ih =>
    intro i0 j c s hc hpoll
    by_cases ht : timeoutMs - elapsedAt i0 ≤ 0
    · have heq : processUploads pollFn elapsedAt timeoutMs pOpt cfg (uid :: rest) i0
          = ([], .error .overallTimeout) := by
        simp [processUploads, ht]
      rw [heq] at hc
      simp at hc
    rcases hp : pollFn i0 (pollTimeoutArg timeoutMs elapsedAt pOpt cfg i0)
      with e | s0
    · have heq : processUploads pollFn elapsedAt timeoutMs pOpt cfg (uid :: rest) i0
          = ([⟨uid, pollTimeoutArg timeoutMs elapsedAt pOpt cfg i0⟩],
             .error (.pollFailed e)) := by
        simp [processUploads, ht, hp]
      rw [heq] at hc
      rcases j with _ | j2
      · simp only [List.getElem?_cons_zero, Option.some.injEq] at hc
        subst hc
        rw [show i0 + 0 = i0 from rfl] at hpoll
        rw [hpoll] at hp
        cases hp
      · simp at hc
    by_cases hst : s0.status = some "PROCESSED"
    · rcases hsrc : s0.src with _ | v
      · have heq : processUploads pollFn elapsedAt timeoutMs pOpt cfg (uid :: rest) i0
            = ([⟨uid, pollTimeoutArg timeoutMs elapsedAt pOpt cfg i0⟩],
               .error (.noSrc s0)) := by
          simp [processUploads, ht, hp, hst, hsrc]
        rw [heq] at hc
        rcases j with _ | j2
        · simp only [List.getElem?_cons_zero, Option.some.injEq] at hc
          subst hc
          rw [show i0 + 0 = i0 from rfl] at hpoll
          rw [hpoll] at hp
          cases hp
          exact ⟨fun hns => absurd hst hns, fun _ _ => by rw [heq]⟩
        · simp at hc
      by_cases hv : v = ""
      · have heq : processUploads pollFn elapsedAt timeoutMs pOpt cfg (uid :: rest) i0
            = ([⟨uid, pollTimeoutArg timeoutMs elapsedAt pOpt cfg i0⟩],
               .error (.noSrc s0)) := by
          simp [processUploads, ht, hp, hst, hsrc, hv]
        rw [heq] at hc
        rcases j with _ | j2
        · simp only [List.getElem?_cons_zero, Option.some.injEq] at hc
          subst hc
          rw [show i0 + 0 = i0 from rfl] at hpoll
          rw [hpoll] at hp
          cases hp
          exact ⟨fun hns => absurd hst hns, fun _ _ => by rw [heq]⟩
        · simp at hc
      · have heq : processUploads pollFn elapsedAt timeoutMs pOpt cfg (uid :: rest) i0
            = (⟨uid, pollTimeoutArg timeoutMs elapsedAt pOpt cfg i0⟩
                :: (processUploads pollFn elapsedAt timeoutMs pOpt cfg rest (i0 + 1)).1,
               Except.map (fun l => v :: l)
                (processUploads pollFn elapsedAt timeoutMs pOpt cfg rest (i0 + 1)).2) := by
          simp [processUploads, ht, hp, hst, hsrc, hv]
        rw [heq] at hc
        rcases j with _ | j2
        · simp only [List.getElem?_cons_zero, Option.some.injEq] at hc
          subst hc
          rw [show i0 + 0 = i0 from rfl] at hpoll
          rw [hpoll] at hp
          cases hp
          refine ⟨fun hns => absurd hst hns, fun _ hbad => ?_⟩
          rcases hbad with hn | he
          · rw [hsrc] at hn; cases hn
          · rw [hsrc] at he
            cases he
            exact absurd rfl hv
        · simp only [List.getElem?_cons_succ] at hc
          have e1 : i0 + (j2 + 1) = i0 + 1 + j2 := by omega
          rw [e1] at hpoll
          obtain ⟨b1, b2⟩ := ih (i0 + 1) j2 c s hc hpoll
          rw [heq]
          constructor
          · intro hns
            show Except.map (fun l => v :: l)
              (processUploads pollFn elapsedAt timeoutMs pOpt cfg rest (i0 + 1)).2 = _
            rw [b1 hns]
            rfl
          · intro hps hbad
            show Except.map (fun l => v :: l)
              (processUploads pollFn elapsedAt timeoutMs pOpt cfg rest (i0 + 1)).2 = _
            rw [b2 hps hbad]
            rfl
    · have heq : processUploads pollFn elapsedAt timeoutMs pOpt cfg (uid :: rest) i0
          = ([⟨uid, pollTimeoutArg timeoutMs elapsedAt pOpt cfg i0⟩],
             .error (.terminalState s0)) := by
        simp [processUploads, ht, hp, hst]
      rw [heq] at hc
      rcases j with _ | j2
      · simp only [List.getElem?_cons_zero, Option.some.injEq] at hc
        subst hc
        rw [show i0 + 0 = i0 from rfl] at hpoll
        rw [hpoll] at hp
        cases hp
        exact ⟨fun _ => by rw [heq], fun hps => absurd hps hst⟩
      · simp at hc

/-- Deadline budget at loop index `j` (all earlier steps good): if the
remaining time is not positive, the loop stops with the overall-timeout
error having issued no poll for that upload (exactly `j` calls exist);
otherwise the `j`-th poll call is issued with the computed timeout. -/
lemma processUploads_budget (pollFn : Nat → Int → Except PollThrow StatusObj)
    (elapsedAt : Nat → Int) (timeoutMs : Int) (pOpt : Option Int) (cfg : Int) :
    ∀ (uploads : List String) (i0 j : Nat),
      j < uploads.length →
      (∀ j2, j2 < j → goodStep pollFn elapsedAt timeoutMs pOpt cfg (i0 + j2)) →
      ((timeoutMs - elapsedAt (i0 + j) ≤ 0 →
        (processUploads pollFn elapsedAt timeoutMs pOpt cfg uploads i0).1.length = j ∧
        (processUploads pollFn elapsedAt timeoutMs pOpt cfg uploads i0).2
          = .error .overallTimeout) ∧
       (0 < timeoutMs - elapsedAt (i0 + j) →
        (processUploads pollFn elapsedAt timeoutMs pOpt cfg uploads i0).1[j]?
          = some ⟨uploads[j]?.getD "",
              pollTimeoutArg timeoutMs elapsedAt pOpt cfg (i0 + j)⟩)) := by
  intro uploads
  induction uploads with
  | nil =>
    intro i0 j hj _
    simp at hj
  | cons uid rest ih =>
    intro i0 j hj hprev
    rcases j with _ | j2
    · rw [show i0 + 0 = i0 from rfl]
      constructor
      · intro ht
        have heq : processUploads pollFn elapsedAt timeoutMs pOpt cfg (uid :: rest) i0
            = ([], .error .overallTimeout) := by
          simp [processUploads, ht]
        rw [heq]
        exact ⟨rfl, rfl⟩
      · intro hpos
        have ht : ¬ timeoutMs - elapsedAt i0 ≤ 0 := by omega
        rcases hp : pollFn i0 (pollTimeoutArg timeoutMs elapsedAt pOpt cfg i0)
          with e | s0
        · have heq : processUploads pollFn elapsedAt timeoutMs pOpt cfg (uid :: rest) i0
              = ([⟨uid, pollTimeoutArg timeoutMs elapsedAt pOpt cfg i0⟩],
                 .error (.pollFailed e)) := by
            simp [processUploads, ht, hp]
          rw [heq]
          simp
        by_cases hst : s0.status = some "PROCESSED"
        · rcases hsrc : s0.src with _ | v
          · have heq : processUploads pollFn elapsedAt timeoutMs pOpt cfg (uid :: rest) i0
                = ([⟨uid, pollTimeoutArg timeoutMs elapsedAt pOpt cfg i0⟩],
                   .error (.noSrc s0)) := by
              simp [processUploads, ht, hp, hst, hsrc]
            rw [heq]
            simp
          by_cases hv : v = ""
          · have heq : processUploads pollFn elapsedAt timeoutMs pOpt cfg (uid :: rest) i0
                = ([⟨uid, pollTimeoutArg timeoutMs elapsedAt pOpt cfg i0⟩],
                   .error (.noSrc s0)) := by
              simp [processUploads, ht, hp, hst, hsrc, hv]
            rw [heq]
            simp
          · have heq : processUploads pollFn elapsedAt timeoutMs pOpt cfg (uid :: rest) i0
                = (⟨uid, pollTimeoutArg timeoutMs elapsedAt pOpt cfg i0⟩
                    :: (processUploads pollFn elapsedAt timeoutMs pOpt cfg rest (i0 + 1)).1,
                   Except.map (fun l => v :: l)
                    (processUploads pollFn elapsedAt timeoutMs pOpt cfg rest (i0 + 1)).2) := by
              simp [processUploads, ht, hp, hst, hsrc, hv]
            rw [heq]
            simp
        · have heq : processUploads pollFn elapsedAt timeoutMs pOpt cfg (uid :: rest) i0
              = ([⟨uid, pollTimeoutArg timeoutMs elapsedAt pOpt cfg i0⟩],
                 .error (.terminalState s0)) := by
            simp [processUploads, ht, hp, hst]
          rw [heq]
          simp
    · have hg := hprev 0 (by omega)
      rw [show i0 + 0 = i0 from rfl] at hg
      simp only [goodStep] at hg
      obtain ⟨hpos0, s0, v, hp, hst, hsrc, hv⟩ := hg
      have ht : ¬ timeoutMs - elapsedAt i0 ≤ 0 := by omega
      have heq : processUploads pollFn elapsedAt timeoutMs pOpt cfg (uid :: rest) i0
          = (⟨uid, pollTimeoutArg timeoutMs elapsedAt pOpt cfg i0⟩
              :: (processUploads pollFn elapsedAt timeoutMs pOpt cfg rest (i0 + 1)).1,
             Except.map (fun l => v :: l)
              (processUploads pollFn elapsedAt timeoutMs pOpt cfg rest (i0 + 1)).2) := by
        simp [processUploads, ht, hp, hst, hsrc, hv]
      have hprev2 : ∀ j3, j3 < j2 →
          goodStep pollFn elapsedAt timeoutMs pOpt cfg (i0 + 1 + j3) := by
        intro j3 hj3
        have := hprev (j3 + 1) (by omega)
        have e1 : i0 + (j3 + 1) = i0 + 1 + j3 := by omega
        rw [e1] at this
        exact this
      obtain ⟨b1, b2⟩ := ih (i0 + 1) j2 (by simpa using hj) hprev2
      have e1 : i0 + 1 + j2 = i0 + (j2 + 1) := by omega
      rw [e1] at b1 b2
      constructor
      · intro ht2
        obtain ⟨c1, c2⟩ := b1 ht2
        rw [heq]
        constructor
        · simp [c1]
        · show Except.map (fun l => v :: l)
            (processUploads pollFn elapsedAt timeoutMs pOpt cfg rest (i0 + 1)).2 = _
          rw [c2]
          rfl
      · intro hpos2
        have := b2 hpos2
        rw [heq]
        simpa using this

/-- Unfolding `submitPostWithFiles` on the non-empty-files path when the
polling loop fails: the loop's error is re-thrown with the trace of poll
calls made so far. -/
lemma submitPostWithFiles_run_err (body : String) (f0 : FileItem)
    (fs' : List FileItem) (rp : JSVal) (qid : Option String)
    (uploadResps : Nat → UploadResp) (maxRetries : Nat)
    (pollFn : Nat → Int → Except PollThrow StatusObj) (elapsedAt : Nat → Int)
    (pOpt : Option Int) (timeoutMs cfg : Int) (uploads : List String)
    (rpo qo : Option String)
    (hrp : eagerValidateRP rp = .ok rpo)
    (hqid : resolveQuotePostID qid = .ok qo)
    (hup : (retryAsync (fun k => (uploadFiles (some (f0 :: fs')) (uploadResps k)).2)
      maxRetries 300).1 = .ok uploads)
    (e : SPWFErr)
    (her : (processUploads pollFn elapsedAt timeoutMs pOpt cfg uploads 0).2
      = .error e) :
    submitPostWithFiles body (some (f0 :: fs')) rp qid uploadResps maxRetries
      pollFn elapsedAt pOpt timeoutMs cfg
      = ((processUploads pollFn elapsedAt timeoutMs pOpt cfg uploads 0).1,
         .err e) := by
  simp only [submitPostWithFiles, List.isEmpty_cons, Bool.false_eq_true, if_false,
    hrp, hqid, hup, her]

/-- Unfolding `submitPostWithFiles` on the non-empty-files path when the
polling loop succeeds: `submitPost` runs on the collected sources. -/
lemma submitPostWithFiles_run_ok (body : String) (f0 : FileItem)
    (fs' : List FileItem) (rp : JSVal) (qid : Option String)
    (uploadResps : Nat → UploadResp) (maxRetries : Nat)
    (pollFn : Nat → Int → Except PollThrow StatusObj) (elapsedAt : Nat → Int)
    (pOpt : Option Int) (timeoutMs cfg : Int) (uploads : List String)
    (rpo qo : Option String)
    (hrp : eagerValidateRP rp = .ok rpo)
    (hqid : resolveQuotePostID qid = .ok qo)
    (hup : (retryAsync (fun k => (uploadFiles (some (f0 :: fs')) (uploadResps k)).2)
      maxRetries 300).1 = .ok uploads)
    (srcs : List String)
    (hok : (processUploads pollFn elapsedAt timeoutMs pOpt cfg uploads 0).2
      = .ok srcs) :
    submitPostWithFiles body (some (f0 :: fs')) rp qid uploadResps maxRetries
      pollFn elapsedAt pOpt timeoutMs cfg
      = ((processUploads pollFn elapsedAt timeoutMs pOpt cfg uploads 0).1,
         toSPWF (submitPost body srcs rp qid none)) := by
  simp only [submitPostWithFiles, List.isEmpty_cons, Bool.false_eq_true, if_false,
    hrp, hqid, hup, hok]

/-- C1: the PROCESSED invariant of `submitPostWithFiles` (non-empty file
list, upload phase yielding `uploads`).  If the call reaches
`submitPost` (result `.submitted p`), then every upload's poll returned
a `PROCESSED` status with a truthy `src`, and `p.medias` lists exactly
those `src` values in upload order.  Conversely, if the poll for any
upload returned a status other than `PROCESSED`, the whole call fails
with the terminal-state error carrying that status object — so
`submitPost` is never invoked — and a `PROCESSED` status without a
resolved `src` fails with the no-src error carrying it. -/
theorem submitPostWithFiles_processed_invariant (body : String) (f0 : FileItem)
    (fs' : List FileItem) (rp : JSVal) (qid : Option String)
    (uploadResps : Nat → UploadResp) (maxRetries : Nat)
    (pollFn : Nat → Int → Except PollThrow StatusObj) (elapsedAt : Nat → Int)
    (pOpt : Option Int) (timeoutMs cfg : Int) (uploads : List String)
    (rpo qo : Option String)
    (hrp : eagerValidateRP rp = .ok rpo)
    (hqid : resolveQuotePostID qid = .ok qo)
    (hup : (retryAsync (fun k => (uploadFiles (some (f0 :: fs')) (uploadResps k)).2)
      maxRetries 300).1 = .ok uploads) :
    (∀ p, (submitPostWithFiles body (some (f0 :: fs')) rp qid uploadResps
        maxRetries pollFn elapsedAt pOpt timeoutMs cfg).2 = .submitted p →
      p.medias.length = uploads.length ∧
      (∀ j, j < uploads.length →
        ∃ s, pollFn j (pollTimeoutArg timeoutMs elapsedAt pOpt cfg j) = .ok s ∧
          s.status = some "PROCESSED" ∧ s.src = some (p.medias[j]?.getD "") ∧
          p.medias[j]?.getD "" ≠ "")) ∧
    (∀ j c s, (submitPostWithFiles body (some (f0 :: fs')) rp qid uploadResps
        maxRetries pollFn elapsedAt pOpt timeoutMs cfg).1[j]? = some c →
      pollFn j c.timeoutArg = .ok s →
      (s.status ≠ some "PROCESSED" →
        (submitPostWithFiles body (some (f0 :: fs')) rp qid uploadResps maxRetries
          pollFn elapsedAt pOpt timeoutMs cfg).2 = .err (.terminalState s)) ∧
      (s.status = some "PROCESSED" → (s.src = none ∨ s.src = some "") →
        (submitPostWithFiles body (some (f0 :: fs')) rp qid uploadResps maxRetries
          pollFn elapsedAt pOpt timeoutMs cfg).2 = .err (.noSrc s))) := by
  constructor
  · intro p hsub
    rcases hres : (processUploads pollFn elapsedAt timeoutMs pOpt cfg uploads 0).2
      with e | srcs
    · rw [submitPostWithFiles_run_err body f0 fs' rp qid uploadResps maxRetries
        pollFn elapsedAt pOpt timeoutMs cfg uploads rpo qo hrp hqid hup e hres]
        at hsub
      simp at hsub
    · rw [submitPostWithFiles_run_ok body f0 fs' rp qid uploadResps maxRetries
        pollFn elapsedAt pOpt timeoutMs cfg uploads rpo qo hrp hqid hup srcs hres,
        submitPost_of_valid body srcs rp qid rpo qo hrp hqid] at hsub
      have hsub2 : SPWFResult.submitted
          (⟨body, srcs, if rp = JSVal.undef then "PUBLIC" else rpo.getD "PUBLIC",
            qo, none⟩ : PostPayload) = .submitted p := hsub
      cases hsub2
      obtain ⟨ok1, ok2, ok3⟩ := processUploads_ok pollFn elapsedAt timeoutMs pOpt
        cfg uploads 0 srcs hres
      refine ⟨ok1, ?_⟩
      intro j hj
      have h3 := (ok3 j hj).2
      simpa using h3
  · intro j c s hc hpoll
    have hpoll2 : pollFn (0 + j) c.timeoutArg = .ok s := by
      rwa [Nat.zero_add]
    rcases hres : (processUploads pollFn elapsedAt timeoutMs pOpt cfg uploads 0).2
      with e | srcs
    · have hrun := submitPostWithFiles_run_err body f0 fs' rp qid uploadResps
        maxRetries pollFn elapsedAt pOpt timeoutMs cfg uploads rpo qo hrp hqid hup
        e hres
      rw [hrun] at hc
      have hc2 : (processUploads pollFn elapsedAt timeoutMs pOpt cfg uploads 0).1[j]?
          = some c := hc
      obtain ⟨b1, b2⟩ := processUploads_call_bad pollFn elapsedAt timeoutMs pOpt
        cfg uploads 0 j c s hc2 hpoll2
      constructor
      · intro hns
        have he := b1 hns
        rw [hres] at he
        cases he
        rw [hrun]
      · intro hps hbad
        have he := b2 hps hbad
        rw [hres] at he
        cases he
        rw [hrun]
    · have hrun := submitPostWithFiles_run_ok body f0 fs' rp qid uploadResps
        maxRetries pollFn elapsedAt pOpt timeoutMs cfg uploads rpo qo hrp hqid hup
        srcs hres
      rw [hrun] at hc
      have hc2 : (processUploads pollFn elapsedAt timeoutMs pOpt cfg uploads 0).1[j]?
          = some c := hc
      obtain ⟨b1, b2⟩ := processUploads_call_bad pollFn elapsedAt timeoutMs pOpt
        cfg uploads 0 j c s hc2 hpoll2
      constructor
      · intro hns
        have he := b1 hns
        rw [hres] at he
        cases he
      · intro hps hbad
        have he := b2 hps hbad
        rw [hres] at he
        cases he

/-- Witness for the PROCESSED invariant: the end-to-end scenario (one
file, upload id `U1`, poll returns `PROCESSED` with src `S1`, submit is
reached with medias `["S1"]`). -/
theorem submitPostWithFiles_processed_invariant_witness :
    ∃ s : StatusObj,
      (Except.ok ⟨some "PROCESSED", some "S1", false⟩
        : Except PollThrow StatusObj) = .ok s ∧
      s.status = some "PROCESSED" ∧ s.src = some "S1" ∧ "S1" ≠ "" :=
  ((submitPostWithFiles_processed_invariant "b" ⟨some "a.jpg", false, false⟩ []
      JSVal.undef none (fun _ => ⟨true, 200, some ⟨true, some ["U1"], none⟩⟩) 3
      (fun _ _ => .ok ⟨some "PROCESSED", some "S1", false⟩) (fun _ => 0)
      none 120000 30000 ["U1"] none none (by decide) (by decide) (by decide)).1
    ⟨"b", ["S1"], "PUBLIC", none, none⟩ (by decide)).2 0 (by decide)

/-- C5: the deadline budget of the polling phase of
`submitPostWithFiles`.  At loop index `j` (earlier steps all good): if
the remaining slice of the overall budget is not positive, the call
fails with the overall timeout error without issuing a status query for
that upload (the poll-call trace has exactly `j` entries); otherwise the
`j`-th poll is invoked with a timeout equal to the minimum of the
remaining budget and the per-call poll timeout (falling back to the
configured default). -/
theorem submitPostWithFiles_deadline_budget (body : String) (f0 : FileItem)
    (fs' : List FileItem) (rp : JSVal) (qid : Option String)
    (uploadResps : Nat → UploadResp) (maxRetries : Nat)
    (pollFn : Nat → Int → Except PollThrow StatusObj) (elapsedAt : Nat → Int)
    (pOpt : Option Int) (timeoutMs cfg : Int) (uploads : List String)
    (rpo qo : Option String) (j : Nat)
    (hrp : eagerValidateRP rp = .ok rpo)
    (hqid : resolveQuotePostID qid = .ok qo)
    (hup : (retryAsync (fun k => (uploadFiles (some (f0 :: fs')) (uploadResps k)).2)
      maxRetries 300).1 = .ok uploads)
    (hj : j < uploads.length)
    (hprev : ∀ j2, j2 < j → goodStep pollFn elapsedAt timeoutMs pOpt cfg j2) :
    (timeoutMs - elapsedAt j ≤ 0 →
      (submitPostWithFiles body (some (f0 :: fs')) rp qid uploadResps maxRetries
        pollFn elapsedAt pOpt timeoutMs cfg).1.length = j ∧
      (submitPostWithFiles body (some (f0 :: fs')) rp qid uploadResps maxRetries
        pollFn elapsedAt pOpt timeoutMs cfg).2 = .err .overallTimeout) ∧
    (0 < timeoutMs - elapsedAt j →
      (submitPostWithFiles body (some (f0 :: fs')) rp qid uploadResps maxRetries
        pollFn elapsedAt pOpt timeoutMs cfg).1[j]?
        = some ⟨uploads[j]?.getD "",
            min (timeoutMs - elapsedAt j) (pOpt.getD cfg)⟩) := by
  have hprev0 : ∀ j2, j2 < j →
      goodStep pollFn elapsedAt timeoutMs pOpt cfg (0 + j2) := by
    intro j2 hj2
    have := hprev j2 hj2
    rwa [Nat.zero_add]
  obtain ⟨b1, b2⟩ := processUploads_budget pollFn elapsedAt timeoutMs pOpt cfg
    uploads 0 j hj hprev0
  rw [Nat.zero_add] at b1 b2
  constructor
  · intro ht
    obtain ⟨c1, c2⟩ := b1 ht
    rw [submitPostWithFiles_run_err body f0 fs' rp qid uploadResps maxRetries
      pollFn elapsedAt pOpt timeoutMs cfg uploads rpo qo hrp hqid hup
      .overallTimeout c2]
    exact ⟨c1, rfl⟩
  · intro hpos
    have hcall := b2 hpos
    rcases hres : (processUploads pollFn elapsedAt timeoutMs pOpt cfg uploads 0).2
      with e | srcs
    · rw [submitPostWithFiles_run_err body f0 fs' rp qid uploadResps maxRetries
        pollFn elapsedAt pOpt timeoutMs cfg uploads rpo qo hrp hqid hup e hres]
      exact hcall
    · rw [submitPostWithFiles_run_ok body f0 fs' rp qid uploadResps maxRetries
        pollFn elapsedAt pOpt timeoutMs cfg uploads rpo qo hrp hqid hup srcs hres]
      exact hcall

/-- Witness for the deadline-budget theorem: with the overall budget
already exhausted before the first upload is examined, the call fails
with the overall timeout error and no poll call is recorded; with a
positive budget, the first poll is invoked with the minimum of the
remaining budget and the default poll timeout. -/
theorem submitPostWithFiles_deadline_budget_witness :
    ((submitPostWithFiles "b" (some [⟨some "a.jpg", false, false⟩]) JSVal.undef
        none (fun _ => ⟨true, 200, some ⟨true, some ["U1"], none⟩⟩) 3
        (fun _ _ => .ok ⟨some "PROCESSED", some "S1", false⟩) (fun _ => 200000)
        none 120000 30000).1.length = 0 ∧
      (submitPostWithFiles "b" (some [⟨some "a.jpg", false, false⟩]) JSVal.undef
        none (fun _ => ⟨true, 200, some ⟨true, some ["U1"], none⟩⟩) 3
        (fun _ _ => .ok ⟨some "PROCESSED", some "S1", false⟩) (fun _ => 200000)
        none 120000 30000).2 = .err .overallTimeout) ∧
    (submitPostWithFiles "b" (some [⟨some "a.jpg", false, false⟩]) JSVal.undef
        none (fun _ => ⟨true, 200, some ⟨true, some ["U1"], none⟩⟩) 3
        (fun _ _ => .ok ⟨some "PROCESSED", some "S1", false⟩) (fun _ => 0)
        none 120000 30000).1[0]?
      = some ⟨"U1", min ((120000 : Int) - 0) 30000⟩ := by
  constructor
  · exact (submitPostWithFiles_deadline_budget "b" ⟨some "a.jpg", false, false⟩ []
      JSVal.undef none (fun _ => ⟨true, 200, some ⟨true, some ["U1"], none⟩⟩) 3
      (fun _ _ => .ok ⟨some "PROCESSED", some "S1", false⟩) (fun _ => 200000)
      none 120000 30000 ["U1"] none none 0 (by decide) (by decide) (by decide)
      (by decide) (fun j2 hj2 => absurd hj2 (by omega))).1 (by decide)
  · exact (submitPostWithFiles_deadline_budget "b" ⟨some "a.jpg", false, false⟩ []
      JSVal.undef none (fun _ => ⟨true, 200, some ⟨true, some ["U1"], none⟩⟩) 3
      (fun _ _ => .ok ⟨some "PROCESSED", some "S1", false⟩) (fun _ => 0)
      none 120000 30000 ["U1"] none none 0 (by decide) (by decide) (by decide)
      (by decide) (fun j2 hj2 => absurd hj2 (by omega))).2 (by decide)

/-- C10: a 2xx upload response with `success = true` but no `uploads`
field makes `uploadFiles` return the empty list instead of failing;
`submitPostWithFiles` then records no poll call and invokes `submitPost`
with an empty `medias` list. -/
theorem submitPostWithFiles_no_uploads_field (body : String) (f0 : FileItem)
    (fs' : List FileItem) (rp : JSVal) (qid : Option String)
    (uploadResps : Nat → UploadResp) (maxRetries : Nat)
    (pollFn : Nat → Int → Except PollThrow StatusObj) (elapsedAt : Nat → Int)
    (pOpt : Option Int) (timeoutMs cfg : Int) (st : Nat)
    (reason : Option String) (rpo qo : Option String)
    (hvalid : (f0 :: fs').all hasValidForm = true)
    (hrp : eagerValidateRP rp = .ok rpo)
    (hqid : resolveQuotePostID qid = .ok qo)
    (hresp : uploadResps 0 = ⟨true, st, some ⟨true, none, reason⟩⟩) :
    uploadFiles (some (f0 :: fs')) (uploadResps 0) = (1, .ok []) ∧
    (submitPostWithFiles body (some (f0 :: fs')) rp qid uploadResps maxRetries
      pollFn elapsedAt pOpt timeoutMs cfg).1 = [] ∧
    (submitPostWithFiles body (some (f0 :: fs')) rp qid uploadResps maxRetries
      pollFn elapsedAt pOpt timeoutMs cfg).2
      = .submitted ⟨body, [],
          if rp = JSVal.undef then "PUBLIC" else rpo.getD "PUBLIC", qo, none⟩ := by
  have hupload : uploadFiles (some (f0 :: fs')) (uploadResps 0) = (1, .ok []) := by
    simp [uploadFiles, hresp, hvalid]
  have h0 : (fun k => (uploadFiles (some (f0 :: fs')) (uploadResps k)).2) 0
      = .ok [] := by
    simp only [hupload]
  have hup : (retryAsync (fun k => (uploadFiles (some (f0 :: fs')) (uploadResps k)).2)
      maxRetries 300).1 = .ok [] := by
    rw [retryAsync, retryAux_ok _ 300 0 [] h0 maxRetries]
  have hpoll0 : (processUploads pollFn elapsedAt timeoutMs pOpt cfg [] 0).2
      = .ok [] := rfl
  have hrun := submitPostWithFiles_run_ok body f0 fs' rp qid uploadResps
    maxRetries pollFn elapsedAt pOpt timeoutMs cfg [] rpo qo hrp hqid hup []
    hpoll0
  rw [submitPost_of_valid body [] rp qid rpo qo hrp hqid] at hrun
  refine ⟨hupload, ?_, ?_⟩
  · rw [hrun]
    rfl
  · rw [hrun]
    rfl

/-- Witness for the missing-uploads-field theorem at a concrete call. -/
theorem submitPostWithFiles_no_uploads_field_witness :
    uploadFiles (some [⟨some "a.jpg", false, false⟩])
      ⟨true, 200, some ⟨true, none, none⟩⟩ = (1, .ok []) ∧
    (submitPostWithFiles "b" (some [⟨some "a.jpg", false, false⟩]) JSVal.undef
      none (fun _ => ⟨true, 200, some ⟨true, none, none⟩⟩) 3
      (fun _ _ => .ok ⟨some "PROCESSED", some "S1", false⟩) (fun _ => 0)
      none 120000 30000).1 = [] ∧
    (submitPostWithFiles "b" (some [⟨some "a.jpg", false, false⟩]) JSVal.undef
      none (fun _ => ⟨true, 200, some ⟨true, none, none⟩⟩) 3
      (fun _ _ => .ok ⟨some "PROCESSED", some "S1", false⟩) (fun _ => 0)
      none 120000 30000).2 = .submitted ⟨"b", [], "PUBLIC", none, none⟩ :=
  submitPostWithFiles_no_uploads_field "b" ⟨some "a.jpg", false, false⟩ []
    JSVal.undef none (fun _ => ⟨true, 200, some ⟨true, none, none⟩⟩) 3
    (fun _ _ => .ok ⟨some "PROCESSED", some "S1", false⟩) (fun _ => 0)
    none 120000 30000 200 none none none (by decide) (by decide) (by decide)
    (by decide)
